import Mathlib

/-! Declarable operations of libnd4j: execution entry point and input validation.

A shallow embedding of `include/ops/declarable/declarable_ops.h`:

* the guard `REQUIRE_OK` / `resultHelper`,
* `DeclarableOp<T>::execute`,
* the validation checks `validateNonEmptyInput`, `validateInputDimensions`
  (with its 2D/3D/4D wrappers), `validateOrdersMatch`,
  `validateInputDimensionsMatch` and `validateInputLengthMatch`.

C++ exceptions and undefined behaviour (a member call through a null tensor
handle) are results of type `Except Fault _`; the loops are structural
recursions that return at the first failing iteration, as the C++ loops do.
-/

namespace nd4j

/-- The type `Nd4jStatus` of status codes, a C `int`. No arithmetic is ever done
on a status, so the width of the machine integer plays no role. -/
abbrev Nd4jStatus := Int

/-- The type `Nd4jIndex` of element counts, a C `long long`. -/
abbrev Nd4jIndex := Int

/-- Modelled from the spec: the status constant `ND4J_STATUS_OK`, whose defining
header is not among the sources. OK is the unique success value; the guard
`resultHelper` treats exactly the zero status as success, so OK is `0`. -/
def ND4J_STATUS_OK : Nd4jStatus := 0

/-- Modelled from the spec: the failure code `ND4J_STATUS_BAD_INPUT` (header not
among the sources); a failure kind distinct from OK and from the other codes. -/
def ND4J_STATUS_BAD_INPUT : Nd4jStatus := 1

/-- Modelled from the spec: the failure code `ND4J_STATUS_BAD_LENGTH` (header not
among the sources); a failure kind distinct from OK and from the other codes. -/
def ND4J_STATUS_BAD_LENGTH : Nd4jStatus := 31

/-- Modelled from the spec: the failure code `ND4J_STATUS_BAD_DIMENSIONS` (header
not among the sources); a failure kind distinct from OK and from the other
codes. -/
def ND4J_STATUS_BAD_DIMENSIONS : Nd4jStatus := 32

/-- Modelled from the spec: the failure code `ND4J_STATUS_BAD_ORDER` (header not
among the sources); a failure kind distinct from OK and from the other codes. -/
def ND4J_STATUS_BAD_ORDER : Nd4jStatus := 33

/-- Ways in which a call can fail to return a value. -/
inductive Fault where
  /-- The exception `std::invalid_argument(what)`. -/
  | invalid_argument (what : String)
  /-- A thrown C string, as in `throw "Validation failed"`. -/
  | thrown (text : String)
  /-- The exception `std::out_of_range` of `std::vector::at`. -/
  | out_of_range
  /-- A member call through a null pointer (undefined behaviour in C++). -/
  | nullDereference
deriving DecidableEq, Repr

/-- Modelled from the spec: the tensor type `NDArray<T>`, whose header is not among
the sources. A tensor is represented by what the accessors read by the
validation checks return: `rankOf()`, `shapeOf()` (the ordered sequence of
dimension sizes), `ordering()` (the memory-layout tag, a `char`), `lengthOf()`
(the total element count) and `nonNull()` (whether the tensor holds data). -/
structure NDArray where
  rankOf : Int
  shapeOf : List Int
  ordering : Char
  lengthOf : Nd4jIndex
  nonNull : Bool
deriving DecidableEq, Repr

/-- Modelled from the spec: an input variable `Variable<T>`, whose header is not
among the sources. The block holds pointers to variables, all of them pointing
at a variable object: `address` is the numeric value of such a pointer, and
`getNDArray` is the tensor handle the variable wraps, `none` being `nullptr`. -/
structure Variable where
  address : Int
  getNDArray : Option NDArray
deriving DecidableEq, Repr

/-- Modelled from the spec: the execution context `Block<T>`, whose header is not
among the sources: the ordered sequence of input variables returned by
`getVariables()`. -/
structure Block where
  getVariables : List Variable
deriving DecidableEq, Repr

namespace shape

/-- Modelled from the spec: `shape::equalsSoft`, whose definition is not among the
sources: two shapes are soft-equal when they are dimension-wise equal. -/
def equalsSoft (shapeA shapeB : List Int) : Bool :=
  decide (shapeA = shapeB)

end shape

namespace ops

/-- One line written to `stderr` by `resultHelper`: the arguments of the format
`"Validation error at %s:%d code=%d(%s) \"%s\" \n"`. -/
structure Diagnostic where
  file : String
  line : Int
  code : Int
  name : String
  func : String
deriving DecidableEq, Repr

/-- The function `resultHelper(status, func, file, line)`, with `stderr` passed
explicitly: a status that converts to `true` (a non-zero one) is reported on
`stderr`, with the code cast to `unsigned int`, and then `"Validation failed"`
is thrown; otherwise nothing happens. -/
def resultHelper (status : Nd4jStatus) (func file : String) (line : Int)
    (stderr : List Diagnostic) : Except Fault Unit × List Diagnostic :=
  if status ≠ 0 then
    (Except.error (Fault.thrown "Validation failed"),
      stderr ++ [{ file := file, line := line, code := status % 4294967296,
                   name := "", func := func }])
  else
    (Except.ok (), stderr)

/-- The guard `REQUIRE_OK(A)`: `resultHelper` applied to the value of `A`, the text
of `A`, and the file and line of the guard. -/
def REQUIRE_OK (A : Nd4jStatus) (text file : String) (line : Int)
    (stderr : List Diagnostic) : Except Fault Unit × List Diagnostic :=
  resultHelper A text file line stderr

/-- Modelled from the spec: the descriptor `OpDescriptor`, whose header is not
among the sources: the declared input count, output count and name. -/
structure OpDescriptor where
  numInputs : Int
  numOutputs : Int
  opName : String
deriving DecidableEq, Repr

/-- The fields of a `DeclarableOp<T>` object. `_block` is the stored `Block<T>*`
(`none` is `nullptr`, `some b` points at a block whose content is `b`),
`_descriptor` the owned `OpDescriptor*`, and `derived` whatever state the
concrete operation adds. -/
structure DeclarableOp (σ : Type) where
  _block : Option Block
  _descriptor : Option OpDescriptor
  derived : σ

/-- The pure virtual `validateAndExecute(Block<T>&)`: any function of the block and
of the object, which returns a status or raises, and leaves a new object
state. -/
abbrev ValidateAndExecute (σ : Type) :=
  Block → DeclarableOp σ → Except Fault Nd4jStatus × DeclarableOp σ

/-- What one call of `execute` does: the value returned or the fault raised, the
object afterwards, and the arguments of the calls of `validateAndExecute` made
along the way, in order. -/
structure Execution (σ : Type) where
  result : Except Fault Nd4jStatus
  state : DeclarableOp σ
  calls : List Block

/-- The constructor `DeclarableOp(numInputs, numOutputs, opName)`: it allocates the
descriptor and leaves `_block` uninitialised, here a parameter. -/
def DeclarableOp.new {σ : Type} (numInputs numOutputs : Int) (opName : String)
    (uninitialised : Option Block) (derived : σ) : DeclarableOp σ :=
  { _block := uninitialised
    _descriptor := some { numInputs := numInputs, numOutputs := numOutputs, opName := opName }
    derived := derived }

/-- The method `DeclarableOp<T>::execute(Block<T>* block)`: a non-null `block` is
stored in `_block` and `validateAndExecute(*block)` gives the result; on
`nullptr` the exception `std::invalid_argument("Block is NULL")` is thrown. -/
def execute {σ : Type} (validateAndExecute : ValidateAndExecute σ)
    (block : Option Block) (self : DeclarableOp σ) : Execution σ :=
  match block with
  | some b =>
    let r := validateAndExecute b { self with _block := some b }
    { result := r.1, state := r.2, calls := [b] }
  | none =>
    { result := Except.error (Fault.invalid_argument "Block is NULL")
      state := self
      calls := [] }

/-- The loop `for (auto v: block.getVariables())` of `validateInputDimensions`. -/
def validateInputDimensions.loop (rank : Int) : List Variable → Except Fault Nd4jStatus
  | [] => Except.ok ND4J_STATUS_OK
  | v :: vs =>
    match v.getNDArray with
    | none => Except.ok ND4J_STATUS_BAD_INPUT
    | some aV =>
      if aV.rankOf ≠ rank then Except.ok ND4J_STATUS_BAD_DIMENSIONS
      else validateInputDimensions.loop rank vs

/-- The method `DeclarableOp<T>::validateInputDimensions(block, rank)`. -/
def validateInputDimensions (block : Block) (rank : Int) : Except Fault Nd4jStatus :=
  if block.getVariables.length = 0 then Except.ok ND4J_STATUS_OK
  else validateInputDimensions.loop rank block.getVariables

/-- The method `DeclarableOp<T>::validateInput2D`. -/
def validateInput2D (block : Block) : Except Fault Nd4jStatus :=
  validateInputDimensions block 2

/-- The method `DeclarableOp<T>::validateInput3D`. -/
def validateInput3D (block : Block) : Except Fault Nd4jStatus :=
  validateInputDimensions block 3

/-- The method `DeclarableOp<T>::validateInput4D`. -/
def validateInput4D (block : Block) : Except Fault Nd4jStatus :=
  validateInputDimensions block 4

/-- The loop `for (auto v: block.getVariables())` of `validateNonEmptyInput`; the
test `aV == nullptr || !aV->nonNull()` does not call `nonNull` on a null
handle. -/
def validateNonEmptyInput.loop : List Variable → Except Fault Nd4jStatus
  | [] => Except.ok ND4J_STATUS_OK
  | v :: vs =>
    match v.getNDArray with
    | none => Except.ok ND4J_STATUS_BAD_INPUT
    | some aV =>
      if !aV.nonNull then Except.ok ND4J_STATUS_BAD_INPUT
      else validateNonEmptyInput.loop vs

/-- The method `DeclarableOp<T>::validateNonEmptyInput(block)`. -/
def validateNonEmptyInput (block : Block) : Except Fault Nd4jStatus :=
  if block.getVariables.length < 1 then Except.ok ND4J_STATUS_BAD_INPUT
  else validateNonEmptyInput.loop block.getVariables

/-- The call `getVariables().at(i)` of `std::vector`, which throws
`std::out_of_range` past the end. -/
def at_ (vars : List Variable) (i : Nat) : Except Fault Variable :=
  match vars[i]? with
  | some v => Except.ok v
  | none => Except.error Fault.out_of_range

/-- The loop of `validateOrdersMatch`: `a0->ordering()` and `aV->ordering()` are
member calls through handles that were not tested against `nullptr`. -/
def validateOrdersMatch.loop (a0 : Option NDArray) : List Variable → Except Fault Nd4jStatus
  | [] => Except.ok ND4J_STATUS_OK
  | v :: vs =>
    match a0, v.getNDArray with
    | some t0, some aV =>
      if t0.ordering ≠ aV.ordering then Except.ok ND4J_STATUS_BAD_ORDER
      else validateOrdersMatch.loop a0 vs
    | _, _ => Except.error Fault.nullDereference

/-- The method `DeclarableOp<T>::validateOrdersMatch(block)`. -/
def validateOrdersMatch (block : Block) : Except Fault Nd4jStatus :=
  if block.getVariables.length = 0 then Except.ok ND4J_STATUS_OK
  else
    match at_ block.getVariables 0 with
    | Except.error f => Except.error f
    | Except.ok v0 => validateOrdersMatch.loop v0.getNDArray block.getVariables

/-- The loop of `validateInputDimensionsMatch`: `a0->shapeOf()` and `aV->shapeOf()`
are member calls through handles that were not tested against `nullptr`. -/
def validateInputDimensionsMatch.loop (a0 : Option NDArray) :
    List Variable → Except Fault Nd4jStatus
  | [] => Except.ok ND4J_STATUS_OK
  | v :: vs =>
    match a0, v.getNDArray with
    | some t0, some aV =>
      if !shape.equalsSoft t0.shapeOf aV.shapeOf then Except.ok ND4J_STATUS_BAD_DIMENSIONS
      else validateInputDimensionsMatch.loop a0 vs
    | _, _ => Except.error Fault.nullDereference

/-- The method `DeclarableOp<T>::validateInputDimensionsMatch(block)`; the source
writes `getVariables()->size()` and `getVariables()->at(0)` for the size and the
first element of the variable list. -/
def validateInputDimensionsMatch (block : Block) : Except Fault Nd4jStatus :=
  if block.getVariables.length = 0 then Except.ok ND4J_STATUS_OK
  else
    match at_ block.getVariables 0 with
    | Except.error f => Except.error f
    | Except.ok v0 => validateInputDimensionsMatch.loop v0.getNDArray block.getVariables

/-- The loop `for (int e = 0; e < size; e++)` of `validateInputLengthMatch`, over
the indices still to visit: `at(e)->getNDArray()->lengthOf()` is compared with
`l0`. -/
def validateInputLengthMatch.loop (vars : List Variable) (l0 : Nd4jIndex) :
    List Nat → Except Fault Nd4jStatus
  | [] => Except.ok ND4J_STATUS_OK
  | e :: es =>
    match at_ vars e with
    | Except.error f => Except.error f
    | Except.ok v =>
      match v.getNDArray with
      | none => Except.error Fault.nullDereference
      | some aV =>
        if l0 ≠ aV.lengthOf then Except.ok ND4J_STATUS_BAD_LENGTH
        else validateInputLengthMatch.loop vars l0 es

/-- The method `DeclarableOp<T>::validateInputLengthMatch(block)`. The source
initialises `Nd4jIndex l0 = block.getVariables()->at(0);`: the integer `l0` is
given the pointer to variable 0 itself, not the length of its tensor, so `l0` is
the numeric value of that pointer. -/
def validateInputLengthMatch (block : Block) : Except Fault Nd4jStatus :=
  if block.getVariables.length = 0 then Except.ok ND4J_STATUS_OK
  else
    match at_ block.getVariables 0 with
    | Except.error f => Except.error f
    | Except.ok v0 =>
      validateInputLengthMatch.loop block.getVariables v0.address
        (List.range block.getVariables.length)

/-- What a pointer handed out by `getOpDescriptor` addresses: a descriptor object,
or the field `_descriptor` of the operation, which is itself a pointer and holds
`held`. -/
inductive DescriptorPointer where
  | toObject (d : OpDescriptor)
  | toField (held : Option OpDescriptor)
deriving DecidableEq, Repr

/-- The method `DeclarableOp<T>::getOpDescriptor()`, whose body is
`return &_descriptor;`: the address of the field, not the pointer it holds. -/
def getOpDescriptor {σ : Type} (self : DeclarableOp σ) : DescriptorPointer :=
  DescriptorPointer.toField self._descriptor

/-- The method `DeclarableOp<T>::getOpName()`, whose body is
`return _descriptor->getOpName();`: a member call through `_descriptor`, the
accessor of the descriptor returning its name. -/
def getOpName {σ : Type} (self : DeclarableOp σ) : Except Fault String :=
  match self._descriptor with
  | none => Except.error Fault.nullDereference
  | some d => Except.ok d.opName

/-- The test a variable fails in `validateInputDimensions`, in the words of the
specification: its tensor handle is null, or its tensor has a rank other than
the target rank. -/
def failsRankCheck (rank : Int) (v : Variable) : Bool :=
  match v.getNDArray with
  | none => true
  | some aV => decide (aV.rankOf ≠ rank)

/-- The answer the specification gives for a rank check from the first variable that
fails it: BAD_INPUT on a null handle, BAD_DIMENSIONS on a tensor of another
rank, OK when no variable fails. -/
def rankVerdict (first : Option Variable) : Nd4jStatus :=
  match first with
  | none => ND4J_STATUS_OK
  | some v =>
    match v.getNDArray with
    | none => ND4J_STATUS_BAD_INPUT
    | some _ => ND4J_STATUS_BAD_DIMENSIONS

/-! ## Contexts used as examples -/

/-- A tensor of shape `[2, 3]`: rank 2, six elements, row-major, holding data. -/
def tensor23 : NDArray :=
  { rankOf := 2, shapeOf := [2, 3], ordering := 'c', lengthOf := 6, nonNull := true }

/-- A tensor of shape `[2, 3, 4]`: rank 3, twenty-four elements, row-major, holding
data. -/
def tensor234 : NDArray :=
  { rankOf := 3, shapeOf := [2, 3, 4], ordering := 'c', lengthOf := 24, nonNull := true }

/-- A context with a rank-3 tensor between two rank-2 tensors. -/
def mixedRanks : Block :=
  { getVariables := [ { address := 4096, getNDArray := some tensor23 },
                      { address := 4128, getNDArray := some tensor234 },
                      { address := 4160, getNDArray := some tensor23 } ] }

/-- A context whose first variable wraps a rank-3 tensor and whose second variable
has a null tensor handle. -/
def rank3ThenNull : Block :=
  { getVariables := [ { address := 4096, getNDArray := some tensor234 },
                      { address := 4128, getNDArray := none } ] }

/-- A context whose first variable wraps a rank-2 tensor and whose second variable
has a null tensor handle. -/
def rank2ThenNull : Block :=
  { getVariables := [ { address := 4096, getNDArray := some tensor23 },
                      { address := 4128, getNDArray := none } ] }

/-- A tensor of shape `[2, 3]` in column-major order. -/
def tensor23f : NDArray :=
  { rankOf := 2, shapeOf := [2, 3], ordering := 'f', lengthOf := 6, nonNull := true }

/-- A tensor of shape `[3, 2]`: rank 2, six elements, row-major, holding data. -/
def tensor32 : NDArray :=
  { rankOf := 2, shapeOf := [3, 2], ordering := 'c', lengthOf := 6, nonNull := true }

/-- A tensor of shape `[5]`: rank 1, five elements, row-major, holding data. -/
def tensor5 : NDArray :=
  { rankOf := 1, shapeOf := [5], ordering := 'c', lengthOf := 5, nonNull := true }

/-- A context with two row-major tensors of shape `[2, 3]`, six elements each. -/
def pair23 : Block :=
  { getVariables := [ { address := 4096, getNDArray := some tensor23 },
                      { address := 4128, getNDArray := some tensor23 } ] }

/-- A context with a tensor of shape `[2, 3]` followed by one of shape `[3, 2]`. -/
def pair23and32 : Block :=
  { getVariables := [ { address := 4096, getNDArray := some tensor23 },
                      { address := 4128, getNDArray := some tensor32 } ] }

/-- A context with a row-major tensor followed by a column-major tensor. -/
def pairRowColumn : Block :=
  { getVariables := [ { address := 4096, getNDArray := some tensor23 },
                      { address := 4128, getNDArray := some tensor23f } ] }

/-- A context with a tensor of six elements followed by one of five elements. -/
def pair6and5 : Block :=
  { getVariables := [ { address := 4096, getNDArray := some tensor23 },
                      { address := 4128, getNDArray := some tensor5 } ] }

/-- A context whose first variable has a null tensor handle and whose second
variable wraps a rank-2 tensor. -/
def nullThenRank2 : Block :=
  { getVariables := [ { address := 4096, getNDArray := none },
                      { address := 4128, getNDArray := some tensor23 } ] }

/-- The context `pairRowColumn` with its two variables exchanged. -/
def pairColumnRow : Block :=
  { getVariables := [ { address := 4128, getNDArray := some tensor23f },
                      { address := 4096, getNDArray := some tensor23 } ] }

/-- An override of `validateAndExecute` that returns OK and writes nothing. -/
def returnOk : ValidateAndExecute Unit :=
  fun _ self => (Except.ok ND4J_STATUS_OK, self)

/-- An operation as constructed by `DeclarableOp(2, 1, "add")`, its `_block` not yet
bound. -/
def addOp : DeclarableOp Unit :=
  DeclarableOp.new 2 1 "add" none ()

/-! ## Properties of the execution entry point -/

/-- Claim C1. For every operation (every override of `validateAndExecute`, every
object state), `execute` called with a null context raises the contract fault
`std::invalid_argument("Block is NULL")`, makes no call of `validateAndExecute`,
and leaves the object as it was. -/
theorem execute_null_faults {σ : Type} (validateAndExecute : ValidateAndExecute σ)
    (self : DeclarableOp σ) :
    (execute validateAndExecute none self).result
        = Except.error (Fault.invalid_argument "Block is NULL")
      ∧ (execute validateAndExecute none self).calls = []
      ∧ (execute validateAndExecute none self).state = self := by
  refine ⟨rfl, rfl, rfl⟩

/-- Claim C2. For every operation and every non-null context `b`, `execute` makes
exactly one call of `validateAndExecute`, on `b` itself, with `b` stored in
`_block`, and its result is the result of that call, unchanged: the same status
code, whichever it is, or the same fault. -/
theorem execute_delegates {σ : Type} (validateAndExecute : ValidateAndExecute σ)
    (b : Block) (self : DeclarableOp σ) :
    (execute validateAndExecute (some b) self).calls = [b]
      ∧ (execute validateAndExecute (some b) self).result
          = (validateAndExecute b { self with _block := some b }).1
      ∧ (execute validateAndExecute (some b) self).state
          = (validateAndExecute b { self with _block := some b }).2
      ∧ ∀ s : Nd4jStatus,
          (validateAndExecute b { self with _block := some b }).1 = Except.ok s ↔
            (execute validateAndExecute (some b) self).result = Except.ok s := by
  refine ⟨rfl, rfl, rfl, fun s => Iff.rfl⟩

/-! ## Properties of the validation checks -/

/-- Claim C3. On a context with zero input variables, `validateInputDimensions` (for
every target rank), `validateOrdersMatch`, `validateInputDimensionsMatch` and
`validateInputLengthMatch` all return OK, while `validateNonEmptyInput` returns
BAD_INPUT. -/
theorem empty_context_checks (block : Block) (h : block.getVariables = []) :
    (∀ rank : Int, validateInputDimensions block rank = Except.ok ND4J_STATUS_OK)
      ∧ validateOrdersMatch block = Except.ok ND4J_STATUS_OK
      ∧ validateInputDimensionsMatch block = Except.ok ND4J_STATUS_OK
      ∧ validateInputLengthMatch block = Except.ok ND4J_STATUS_OK
      ∧ validateNonEmptyInput block = Except.ok ND4J_STATUS_BAD_INPUT := by
  refine ⟨fun rank => ?_, ?_, ?_, ?_, ?_⟩
  · simp [validateInputDimensions, h]
  · simp [validateOrdersMatch, h]
  · simp [validateInputDimensionsMatch, h]
  · simp [validateInputLengthMatch, h]
  · simp [validateNonEmptyInput, h]

/-- The check of Claim C3 at the context without variables. -/
theorem empty_context_checks_witness :
    (Block.mk []).getVariables = []
      ∧ validateInputDimensions (Block.mk []) 2 = Except.ok ND4J_STATUS_OK
      ∧ validateNonEmptyInput (Block.mk []) = Except.ok ND4J_STATUS_BAD_INPUT :=
  ⟨rfl, (empty_context_checks (Block.mk []) rfl).1 2,
    (empty_context_checks (Block.mk []) rfl).2.2.2.2⟩

/-- The loop of `validateNonEmptyInput` answers OK exactly when every variable
visited wraps a tensor that holds data. -/
theorem validateNonEmptyInput_loop_ok (vs : List Variable) :
    validateNonEmptyInput.loop vs = Except.ok ND4J_STATUS_OK ↔
      ∀ v ∈ vs, ∃ aV, v.getNDArray = some aV ∧ aV.nonNull = true := by
  induction vs with
  | nil => simp [validateNonEmptyInput.loop]
  | cons v vs ih =>
    cases hv : v.getNDArray with
    | none => simp [validateNonEmptyInput.loop, hv, ND4J_STATUS_OK, ND4J_STATUS_BAD_INPUT]
    | some aV =>
      cases hn : aV.nonNull with
      | false =>
        simp [validateNonEmptyInput.loop, hv, hn, ND4J_STATUS_OK, ND4J_STATUS_BAD_INPUT]
      | true => simp [validateNonEmptyInput.loop, hv, hn, ih]

/-- The loop of `validateNonEmptyInput` has only two answers. -/
theorem validateNonEmptyInput_loop_cases (vs : List Variable) :
    validateNonEmptyInput.loop vs = Except.ok ND4J_STATUS_OK
      ∨ validateNonEmptyInput.loop vs = Except.ok ND4J_STATUS_BAD_INPUT := by
  induction vs with
  | nil => simp [validateNonEmptyInput.loop]
  | cons v vs ih =>
    cases hv : v.getNDArray with
    | none => simp [validateNonEmptyInput.loop, hv]
    | some aV =>
      cases hn : aV.nonNull with
      | false => simp [validateNonEmptyInput.loop, hv, hn]
      | true => simpa [validateNonEmptyInput.loop, hv, hn] using ih

/-- The two answers of the checks that are told apart below are different codes. -/
theorem ok_ne_bad_input :
    (Except.ok ND4J_STATUS_OK : Except Fault Nd4jStatus) ≠ Except.ok ND4J_STATUS_BAD_INPUT := by
  simp [ND4J_STATUS_OK, ND4J_STATUS_BAD_INPUT]

/-- Claim C4. For every context, `validateNonEmptyInput` returns OK if and only if
the context has at least one input variable and every input variable wraps a
non-null tensor handle whose `nonNull()` is true; it returns BAD_INPUT if and
only if that condition fails. -/
theorem validateNonEmptyInput_spec (block : Block) :
    (validateNonEmptyInput block = Except.ok ND4J_STATUS_OK ↔
        (1 ≤ block.getVariables.length ∧
          ∀ v ∈ block.getVariables, ∃ aV, v.getNDArray = some aV ∧ aV.nonNull = true))
      ∧ (validateNonEmptyInput block = Except.ok ND4J_STATUS_BAD_INPUT ↔
        ¬ (1 ≤ block.getVariables.length ∧
          ∀ v ∈ block.getVariables, ∃ aV, v.getNDArray = some aV ∧ aV.nonNull = true)) := by
  by_cases hlen : block.getVariables.length < 1
  · have h0 : ¬ 1 ≤ block.getVariables.length := by omega
    have hne := ok_ne_bad_input
    simp [validateNonEmptyInput, hlen, h0, hne.symm]
  · have h1 : 1 ≤ block.getVariables.length := by omega
    have hok := validateNonEmptyInput_loop_ok block.getVariables
    have hne := ok_ne_bad_input
    rcases validateNonEmptyInput_loop_cases block.getVariables with hc | hc
    · have hall := hok.mp hc
      simp only [validateNonEmptyInput, hlen, if_false, hc]
      exact ⟨⟨fun _ => ⟨h1, hall⟩, fun _ => trivial⟩,
        ⟨fun h => absurd h hne, fun h => absurd ⟨h1, hall⟩ h⟩⟩
    · have hnall : ¬ ∀ v ∈ block.getVariables, ∃ aV, v.getNDArray = some aV ∧ aV.nonNull = true :=
        fun h => hne ((hok.mpr h).symm.trans hc)
      simp only [validateNonEmptyInput, hlen, if_false, hc]
      exact ⟨⟨fun h => absurd h.symm hne, fun h => absurd h.2 hnall⟩,
        ⟨fun _ h => hnall h.2, fun _ => trivial⟩⟩

/-- The loop of `validateInputDimensions` answers OK exactly when every variable
visited wraps a tensor of the target rank. -/
theorem validateInputDimensions_loop_ok (rank : Int) (vs : List Variable) :
    validateInputDimensions.loop rank vs = Except.ok ND4J_STATUS_OK ↔
      ∀ v ∈ vs, ∃ aV, v.getNDArray = some aV ∧ aV.rankOf = rank := by
  induction vs with
  | nil => simp [validateInputDimensions.loop]
  | cons v vs ih =>
    cases hv : v.getNDArray with
    | none => simp [validateInputDimensions.loop, hv, ND4J_STATUS_OK, ND4J_STATUS_BAD_INPUT]
    | some aV =>
      by_cases hr : aV.rankOf = rank
      · simp [validateInputDimensions.loop, hv, hr, ih]
      · simp [validateInputDimensions.loop, hv, hr, ND4J_STATUS_OK, ND4J_STATUS_BAD_DIMENSIONS]

/-- When every variable visited wraps a tensor, the loop of
`validateInputDimensions` has only the answers OK and BAD_DIMENSIONS. -/
theorem validateInputDimensions_loop_present (rank : Int) (vs : List Variable)
    (h : ∀ v ∈ vs, v.getNDArray ≠ none) :
    validateInputDimensions.loop rank vs = Except.ok ND4J_STATUS_OK
      ∨ validateInputDimensions.loop rank vs = Except.ok ND4J_STATUS_BAD_DIMENSIONS := by
  induction vs with
  | nil => simp [validateInputDimensions.loop]
  | cons v vs ih =>
    cases hv : v.getNDArray with
    | none => exact absurd hv (h v (List.mem_cons_self v vs))
    | some aV =>
      by_cases hr : aV.rankOf = rank
      · simpa [validateInputDimensions.loop, hv, hr] using
          ih (fun w hw => h w (List.mem_cons_of_mem v hw))
      · simp [validateInputDimensions.loop, hv, hr]

/-- The method `validateInputDimensions` is its loop: on the empty list the loop
answers OK as the early return does. -/
theorem validateInputDimensions_eq_loop (block : Block) (rank : Int) :
    validateInputDimensions block rank
      = validateInputDimensions.loop rank block.getVariables := by
  unfold validateInputDimensions
  split
  · next h =>
    have h0 : block.getVariables = [] := List.length_eq_zero.mp h
    simp [h0, validateInputDimensions.loop]
  · rfl

/-- Claim C5. For every target rank and every context whose input variables all
wrap a non-null tensor handle, `validateInputDimensions` returns OK if and only
if every input tensor has exactly the target rank, and returns BAD_DIMENSIONS if
and only if some input tensor has another rank. -/
theorem validateInputDimensions_present (block : Block) (rank : Int)
    (h : ∀ v ∈ block.getVariables, v.getNDArray ≠ none) :
    (validateInputDimensions block rank = Except.ok ND4J_STATUS_OK ↔
        ∀ v ∈ block.getVariables, ∀ aV, v.getNDArray = some aV → aV.rankOf = rank)
      ∧ (validateInputDimensions block rank = Except.ok ND4J_STATUS_BAD_DIMENSIONS ↔
        ¬ ∀ v ∈ block.getVariables, ∀ aV, v.getNDArray = some aV → aV.rankOf = rank) := by
  have hne : (Except.ok ND4J_STATUS_OK : Except Fault Nd4jStatus)
      ≠ Except.ok ND4J_STATUS_BAD_DIMENSIONS := by
    simp [ND4J_STATUS_OK, ND4J_STATUS_BAD_DIMENSIONS]
  have hiff : (∀ v ∈ block.getVariables, ∃ aV, v.getNDArray = some aV ∧ aV.rankOf = rank) ↔
      ∀ v ∈ block.getVariables, ∀ aV, v.getNDArray = some aV → aV.rankOf = rank := by
    constructor
    · intro hall v hv aV haV
      obtain ⟨a, ha, hr⟩ := hall v hv
      rw [ha] at haV
      cases haV
      exact hr
    · intro hall v hv
      cases hnd : v.getNDArray with
      | none => exact absurd hnd (h v hv)
      | some aV => exact ⟨aV, rfl, hall v hv aV hnd⟩
  have hok := (validateInputDimensions_loop_ok rank block.getVariables).trans hiff
  rw [validateInputDimensions_eq_loop]
  rcases validateInputDimensions_loop_present rank block.getVariables h with hc | hc
  · have hall := hok.mp hc
    rw [hc]
    exact ⟨⟨fun _ => hall, fun _ => rfl⟩, ⟨fun e => absurd e hne, fun e => absurd hall e⟩⟩
  · have hnall : ¬ ∀ v ∈ block.getVariables, ∀ aV, v.getNDArray = some aV → aV.rankOf = rank :=
      fun e => hne ((hok.mpr e).symm.trans hc)
    rw [hc]
    exact ⟨⟨fun e => absurd e.symm hne, fun e => absurd e hnall⟩, ⟨fun _ => hnall, fun _ => rfl⟩⟩

/-- Claim C5 at a rank-3 tensor among rank-2 tensors, target rank 2: every handle is
non-null and the answer is BAD_DIMENSIONS. -/
theorem validateInputDimensions_present_witness :
    (∀ v ∈ mixedRanks.getVariables, v.getNDArray ≠ none)
      ∧ validateInputDimensions mixedRanks 2 = Except.ok ND4J_STATUS_BAD_DIMENSIONS :=
  ⟨by decide,
    (validateInputDimensions_present mixedRanks 2 (by decide)).2.mpr
      (fun hall => absurd
        (hall { address := 4128, getNDArray := some tensor234 } (by decide) tensor234 rfl)
        (by decide))⟩

/-- The loop of `validateInputDimensions` on a list with a null tensor handle: the
answer is BAD_INPUT when every variable before the first null handle wraps a
tensor of the target rank, and BAD_DIMENSIONS when one of them does not. -/
theorem validateInputDimensions_loop_null (rank : Int) (vs : List Variable)
    (h : ∃ v ∈ vs, v.getNDArray = none) :
    (validateInputDimensions.loop rank vs = Except.ok ND4J_STATUS_BAD_INPUT ↔
        ∀ v ∈ vs.takeWhile (fun w => w.getNDArray.isSome),
          ∀ aV, v.getNDArray = some aV → aV.rankOf = rank)
      ∧ (validateInputDimensions.loop rank vs = Except.ok ND4J_STATUS_BAD_DIMENSIONS ↔
        ¬ ∀ v ∈ vs.takeWhile (fun w => w.getNDArray.isSome),
          ∀ aV, v.getNDArray = some aV → aV.rankOf = rank) := by
  induction vs with
  | nil => simp at h
  | cons v vs ih =>
    cases hv : v.getNDArray with
    | none =>
      simp [validateInputDimensions.loop, hv, List.takeWhile, ND4J_STATUS_BAD_INPUT,
        ND4J_STATUS_BAD_DIMENSIONS]
    | some aV =>
      by_cases hr : aV.rankOf = rank
      · have h2 : ∃ w ∈ vs, w.getNDArray = none := by
          obtain ⟨w, hw, hnone⟩ := h
          rcases List.mem_cons.mp hw with e | hmem
          · rw [e, hv] at hnone
            cases hnone
          · exact ⟨w, hmem, hnone⟩
        have ih2 := ih h2
        simp only [validateInputDimensions.loop, hv, hr, List.takeWhile, Option.isSome,
          ne_eq, not_true_eq_false, if_false, List.forall_mem_cons]
        constructor
        · rw [ih2.1]
          constructor
          · intro hall
            refine ⟨?_, hall⟩
            intro a ha
            cases ha
            exact hr
          · intro hall
            exact hall.2
        · rw [ih2.2]
          constructor
          · intro hn hall
            exact hn hall.2
          · intro hn hall
            apply hn
            refine ⟨?_, hall⟩
            intro a ha
            cases ha
            exact hr
      · have hbad : ¬ ∀ w ∈ (v :: vs).takeWhile (fun w => w.getNDArray.isSome),
            ∀ a, w.getNDArray = some a → a.rankOf = rank := by
          intro hall
          have hmem : v ∈ (v :: vs).takeWhile (fun w => w.getNDArray.isSome) := by
            simp [List.takeWhile, hv]
          exact hr (hall v hmem aV hv)
        simp only [validateInputDimensions.loop, hv, hr, ne_eq, not_false_eq_true, if_true]
        constructor
        · constructor
          · intro e
            simp [ND4J_STATUS_BAD_INPUT, ND4J_STATUS_BAD_DIMENSIONS] at e
          · intro hall
            exact absurd hall hbad
        · constructor
          · intro _
            exact hbad
          · intro _
            trivial

/-- Claim C6, refuted as stated: in the context `rank3ThenNull` the second variable
has a null tensor handle, yet with target rank 2 the check stops at the rank-3
tensor in front of it and returns BAD_DIMENSIONS, not BAD_INPUT. -/
theorem validateInputDimensions_null_after_mismatch :
    (∃ v ∈ rank3ThenNull.getVariables, v.getNDArray = none)
      ∧ validateInputDimensions rank3ThenNull 2 = Except.ok ND4J_STATUS_BAD_DIMENSIONS
      ∧ validateInputDimensions rank3ThenNull 2 ≠ Except.ok ND4J_STATUS_BAD_INPUT := by
  refine ⟨⟨{ address := 4128, getNDArray := none }, by decide, rfl⟩, rfl, ?_⟩
  intro e
  have e2 : (Except.ok ND4J_STATUS_BAD_DIMENSIONS : Except Fault Nd4jStatus)
      = Except.ok ND4J_STATUS_BAD_INPUT := e
  simp [ND4J_STATUS_BAD_INPUT, ND4J_STATUS_BAD_DIMENSIONS] at e2

/-- Claim C6, amended. For every target rank and every context in which at least one
input variable has a null tensor handle, `validateInputDimensions` returns
BAD_INPUT if and only if every input variable before the first null handle wraps
a tensor of the target rank, and returns BAD_DIMENSIONS if and only if one of
them wraps a tensor of another rank; it never returns OK. -/
theorem validateInputDimensions_null (block : Block) (rank : Int)
    (h : ∃ v ∈ block.getVariables, v.getNDArray = none) :
    (validateInputDimensions block rank = Except.ok ND4J_STATUS_BAD_INPUT ↔
        ∀ v ∈ block.getVariables.takeWhile (fun w => w.getNDArray.isSome),
          ∀ aV, v.getNDArray = some aV → aV.rankOf = rank)
      ∧ (validateInputDimensions block rank = Except.ok ND4J_STATUS_BAD_DIMENSIONS ↔
        ¬ ∀ v ∈ block.getVariables.takeWhile (fun w => w.getNDArray.isSome),
          ∀ aV, v.getNDArray = some aV → aV.rankOf = rank)
      ∧ validateInputDimensions block rank ≠ Except.ok ND4J_STATUS_OK := by
  rw [validateInputDimensions_eq_loop]
  refine ⟨(validateInputDimensions_loop_null rank block.getVariables h).1,
    (validateInputDimensions_loop_null rank block.getVariables h).2, ?_⟩
  intro hok
  obtain ⟨v, hv, hnone⟩ := h
  obtain ⟨aV, haV, _⟩ := (validateInputDimensions_loop_ok rank block.getVariables).mp hok v hv
  rw [hnone] at haV
  cases haV

/-- Claim C6, amended, at the context `rank2ThenNull` with target rank 2: the only
variable before the null handle has rank 2 and the answer is BAD_INPUT. -/
theorem validateInputDimensions_null_witness :
    (∃ v ∈ rank2ThenNull.getVariables, v.getNDArray = none)
      ∧ validateInputDimensions rank2ThenNull 2 = Except.ok ND4J_STATUS_BAD_INPUT :=
  ⟨⟨{ address := 4128, getNDArray := none }, by decide, rfl⟩,
    (validateInputDimensions_null rank2ThenNull 2
      ⟨{ address := 4128, getNDArray := none }, by decide, rfl⟩).1.mpr
      (by
        intro v hv aV haV
        have hv2 : v = { address := 4096, getNDArray := some tensor23 } := by
          simpa [rank2ThenNull, List.takeWhile] using hv
        subst hv2
        cases haV
        rfl)⟩

/-- The loop of `validateInputDimensionsMatch` against a present reference tensor,
over variables that all wrap a tensor: OK exactly when every shape is soft-equal
to the reference shape, BAD_DIMENSIONS exactly when one is not. -/
theorem validateInputDimensionsMatch_loop_present (t0 : NDArray) (vs : List Variable)
    (h : ∀ v ∈ vs, v.getNDArray ≠ none) :
    (validateInputDimensionsMatch.loop (some t0) vs = Except.ok ND4J_STATUS_OK ↔
        ∀ v ∈ vs, ∀ aV, v.getNDArray = some aV →
          shape.equalsSoft t0.shapeOf aV.shapeOf = true)
      ∧ (validateInputDimensionsMatch.loop (some t0) vs
            = Except.ok ND4J_STATUS_BAD_DIMENSIONS ↔
        ¬ ∀ v ∈ vs, ∀ aV, v.getNDArray = some aV →
          shape.equalsSoft t0.shapeOf aV.shapeOf = true) := by
  induction vs with
  | nil => simp [validateInputDimensionsMatch.loop, ND4J_STATUS_OK, ND4J_STATUS_BAD_DIMENSIONS]
  | cons v vs ih =>
    have ih2 := ih (fun w hw => h w (List.mem_cons_of_mem v hw))
    cases hv : v.getNDArray with
    | none => exact absurd hv (h v (List.mem_cons_self v vs))
    | some aV =>
      cases hs : shape.equalsSoft t0.shapeOf aV.shapeOf with
      | true =>
        simp only [validateInputDimensionsMatch.loop, hv, hs, List.forall_mem_cons]
        simp only [Option.some.injEq, forall_eq', hs, true_and, Bool.not_true]
        exact ih2
      | false =>
        simp [validateInputDimensionsMatch.loop, hv, hs, ND4J_STATUS_OK,
          ND4J_STATUS_BAD_DIMENSIONS]

/-- Claim C7. For every context with at least one input variable, `v0` being
variable 0 and `a0` its tensor, whose input variables all wrap a non-null tensor
handle, `validateInputDimensionsMatch` returns OK if and only if every input
tensor's shape is soft-equal to the shape of `a0`, and returns BAD_DIMENSIONS if
and only if some input tensor's shape is not. -/
theorem validateInputDimensionsMatch_spec (block : Block) (v0 : Variable) (a0 : NDArray)
    (h0 : block.getVariables.head? = some v0) (ha0 : v0.getNDArray = some a0)
    (h : ∀ v ∈ block.getVariables, v.getNDArray ≠ none) :
    (validateInputDimensionsMatch block = Except.ok ND4J_STATUS_OK ↔
        ∀ v ∈ block.getVariables, ∀ aV, v.getNDArray = some aV →
          shape.equalsSoft a0.shapeOf aV.shapeOf = true)
      ∧ (validateInputDimensionsMatch block = Except.ok ND4J_STATUS_BAD_DIMENSIONS ↔
        ¬ ∀ v ∈ block.getVariables, ∀ aV, v.getNDArray = some aV →
          shape.equalsSoft a0.shapeOf aV.shapeOf = true) := by
  cases hvars : block.getVariables with
  | nil => simp [hvars] at h0
  | cons w ws =>
    have hw : w = v0 := by simpa [hvars] using h0
    subst hw
    have hl := validateInputDimensionsMatch_loop_present a0 (w :: ws) (hvars ▸ h)
    simpa [validateInputDimensionsMatch, hvars, at_, ha0] using hl

/-- Claim C7 at shapes `[2, 3]` and `[2, 3]`, where the answer is OK, and at shapes
`[2, 3]` and `[3, 2]`, where it is BAD_DIMENSIONS. -/
theorem validateInputDimensionsMatch_spec_witness :
    (pair23.getVariables.head? = some { address := 4096, getNDArray := some tensor23 }
        ∧ (∀ v ∈ pair23.getVariables, v.getNDArray ≠ none)
        ∧ validateInputDimensionsMatch pair23 = Except.ok ND4J_STATUS_OK)
      ∧ (pair23and32.getVariables.head? = some { address := 4096, getNDArray := some tensor23 }
        ∧ (∀ v ∈ pair23and32.getVariables, v.getNDArray ≠ none)
        ∧ validateInputDimensionsMatch pair23and32 = Except.ok ND4J_STATUS_BAD_DIMENSIONS) :=
  ⟨⟨rfl, by decide,
      (validateInputDimensionsMatch_spec pair23 { address := 4096, getNDArray := some tensor23 }
        tensor23 rfl rfl (by decide)).1.mpr
        (by
          intro v hv aV haV
          have hv2 : v.getNDArray = some tensor23 := by
            simp only [pair23, List.mem_cons, List.mem_singleton, List.mem_nil_iff,
              or_false, or_self] at hv
            rcases hv with e | e <;> rw [e]
          rw [hv2] at haV
          cases haV
          rfl)⟩,
    ⟨rfl, by decide,
      (validateInputDimensionsMatch_spec pair23and32
        { address := 4096, getNDArray := some tensor23 } tensor23 rfl rfl (by decide)).2.mpr
        (fun hall => absurd
          (hall { address := 4128, getNDArray := some tensor32 } (by decide) tensor32 rfl)
          (by decide))⟩⟩

/-- The loop of `validateOrdersMatch` against a present reference tensor, over
variables that all wrap a tensor: OK exactly when every ordering equals the
reference ordering, BAD_ORDER exactly when one differs. -/
theorem validateOrdersMatch_loop_present (t0 : NDArray) (vs : List Variable)
    (h : ∀ v ∈ vs, v.getNDArray ≠ none) :
    (validateOrdersMatch.loop (some t0) vs = Except.ok ND4J_STATUS_OK ↔
        ∀ v ∈ vs, ∀ aV, v.getNDArray = some aV → aV.ordering = t0.ordering)
      ∧ (validateOrdersMatch.loop (some t0) vs = Except.ok ND4J_STATUS_BAD_ORDER ↔
        ¬ ∀ v ∈ vs, ∀ aV, v.getNDArray = some aV → aV.ordering = t0.ordering) := by
  induction vs with
  | nil => simp [validateOrdersMatch.loop, ND4J_STATUS_OK, ND4J_STATUS_BAD_ORDER]
  | cons v vs ih =>
    have ih2 := ih (fun w hw => h w (List.mem_cons_of_mem v hw))
    cases hv : v.getNDArray with
    | none => exact absurd hv (h v (List.mem_cons_self v vs))
    | some aV =>
      by_cases ho : t0.ordering = aV.ordering
      · simp only [validateOrdersMatch.loop, hv, ho, List.forall_mem_cons]
        simp only [Option.some.injEq, forall_eq', true_and, ne_eq, not_true_eq_false,
          if_false]
        rw [ho] at ih2
        exact ih2
      · have ho2 : ¬ aV.ordering = t0.ordering := fun e => ho e.symm
        simp [validateOrdersMatch.loop, hv, ho, ho2, ND4J_STATUS_OK, ND4J_STATUS_BAD_ORDER]

/-- Claim C8. For every context with at least one input variable, `v0` being
variable 0 and `a0` its tensor, whose input variables all wrap a non-null tensor
handle, `validateOrdersMatch` returns OK if and only if every input tensor's
memory ordering equals the ordering of `a0`, and returns BAD_ORDER if and only
if some input tensor's ordering differs. -/
theorem validateOrdersMatch_spec (block : Block) (v0 : Variable) (a0 : NDArray)
    (h0 : block.getVariables.head? = some v0) (ha0 : v0.getNDArray = some a0)
    (h : ∀ v ∈ block.getVariables, v.getNDArray ≠ none) :
    (validateOrdersMatch block = Except.ok ND4J_STATUS_OK ↔
        ∀ v ∈ block.getVariables, ∀ aV, v.getNDArray = some aV → aV.ordering = a0.ordering)
      ∧ (validateOrdersMatch block = Except.ok ND4J_STATUS_BAD_ORDER ↔
        ¬ ∀ v ∈ block.getVariables, ∀ aV, v.getNDArray = some aV →
          aV.ordering = a0.ordering) := by
  cases hvars : block.getVariables with
  | nil => simp [hvars] at h0
  | cons w ws =>
    have hw : w = v0 := by simpa [hvars] using h0
    subst hw
    have hl := validateOrdersMatch_loop_present a0 (w :: ws) (hvars ▸ h)
    simpa [validateOrdersMatch, hvars, at_, ha0] using hl

/-- Claim C8 at orderings row-major and row-major, where the answer is OK, and at
orderings row-major and column-major, where it is BAD_ORDER. -/
theorem validateOrdersMatch_spec_witness :
    (pair23.getVariables.head? = some { address := 4096, getNDArray := some tensor23 }
        ∧ (∀ v ∈ pair23.getVariables, v.getNDArray ≠ none)
        ∧ validateOrdersMatch pair23 = Except.ok ND4J_STATUS_OK)
      ∧ (pairRowColumn.getVariables.head?
            = some { address := 4096, getNDArray := some tensor23 }
        ∧ (∀ v ∈ pairRowColumn.getVariables, v.getNDArray ≠ none)
        ∧ validateOrdersMatch pairRowColumn = Except.ok ND4J_STATUS_BAD_ORDER) :=
  ⟨⟨rfl, by decide,
      (validateOrdersMatch_spec pair23 { address := 4096, getNDArray := some tensor23 }
        tensor23 rfl rfl (by decide)).1.mpr
        (by
          intro v hv aV haV
          have hv2 : v.getNDArray = some tensor23 := by
            simp only [pair23, List.mem_cons, List.mem_singleton, List.mem_nil_iff,
              or_false, or_self] at hv
            rcases hv with e | e <;> rw [e]
          rw [hv2] at haV
          cases haV
          rfl)⟩,
    ⟨rfl, by decide,
      (validateOrdersMatch_spec pairRowColumn
        { address := 4096, getNDArray := some tensor23 } tensor23 rfl rfl (by decide)).2.mpr
        (fun hall => absurd
          (hall { address := 4128, getNDArray := some tensor23f } (by decide) tensor23f rfl)
          (by decide))⟩⟩

/-- The loop of `validateInputLengthMatch` over in-range indices of a list of
variables that all wrap a tensor: it compares each length with `l0`, never
leaves the list and never meets a null handle. -/
theorem validateInputLengthMatch_loop_present (vars : List Variable) (l0 : Nd4jIndex)
    (h : ∀ v ∈ vars, v.getNDArray ≠ none) (idx : List Nat)
    (hidx : ∀ e ∈ idx, e < vars.length) :
    (validateInputLengthMatch.loop vars l0 idx = Except.ok ND4J_STATUS_OK ↔
        ∀ e ∈ idx, ∀ v aV, vars[e]? = some v → v.getNDArray = some aV → aV.lengthOf = l0)
      ∧ (validateInputLengthMatch.loop vars l0 idx = Except.ok ND4J_STATUS_BAD_LENGTH ↔
        ¬ ∀ e ∈ idx, ∀ v aV, vars[e]? = some v → v.getNDArray = some aV →
          aV.lengthOf = l0) := by
  induction idx with
  | nil => simp [validateInputLengthMatch.loop, ND4J_STATUS_OK, ND4J_STATUS_BAD_LENGTH]
  | cons e es ih =>
    have ih2 := ih (fun i hi => hidx i (List.mem_cons_of_mem e hi))
    have he : e < vars.length := hidx e (List.mem_cons_self e es)
    obtain ⟨v, hv⟩ : ∃ v, vars[e]? = some v := ⟨vars[e], List.getElem?_eq_getElem he⟩
    have hmem : v ∈ vars := List.getElem?_mem hv
    cases hnd : v.getNDArray with
    | none => exact absurd hnd (h v hmem)
    | some aV =>
      have hhead : (∀ w aW, vars[e]? = some w → w.getNDArray = some aW → aW.lengthOf = l0)
          ↔ aV.lengthOf = l0 := by
        constructor
        · intro hall
          exact hall v aV hv hnd
        · intro hl w aW hw haW
          rw [hv] at hw
          cases hw
          rw [hnd] at haW
          cases haW
          exact hl
      rw [List.forall_mem_cons, hhead]
      by_cases hl : l0 = aV.lengthOf
      · have hstep : validateInputLengthMatch.loop vars l0 (e :: es)
            = validateInputLengthMatch.loop vars l0 es := by
          simp [validateInputLengthMatch.loop, at_, hv, hnd, hl]
        rw [hstep]
        simpa [hl] using ih2
      · have hl2 : ¬ aV.lengthOf = l0 := fun e2 => hl e2.symm
        have hstep : validateInputLengthMatch.loop vars l0 (e :: es)
            = Except.ok ND4J_STATUS_BAD_LENGTH := by
          simp [validateInputLengthMatch.loop, at_, hv, hnd, hl]
        rw [hstep]
        simp [hl2, ND4J_STATUS_OK, ND4J_STATUS_BAD_LENGTH]

/-- What `validateInputLengthMatch` computes on a context with at least one input
variable, `v0` being variable 0, whose input variables all wrap a tensor: OK
exactly when every tensor's length equals the numeric value of the pointer to
`v0`, BAD_LENGTH otherwise. The length of the tensor of `v0` plays no role. -/
theorem validateInputLengthMatch_compares_address (block : Block) (v0 : Variable)
    (h0 : block.getVariables.head? = some v0)
    (h : ∀ v ∈ block.getVariables, v.getNDArray ≠ none) :
    (validateInputLengthMatch block = Except.ok ND4J_STATUS_OK ↔
        ∀ v ∈ block.getVariables, ∀ aV, v.getNDArray = some aV → aV.lengthOf = v0.address)
      ∧ (validateInputLengthMatch block = Except.ok ND4J_STATUS_BAD_LENGTH ↔
        ¬ ∀ v ∈ block.getVariables, ∀ aV, v.getNDArray = some aV →
          aV.lengthOf = v0.address) := by
  have hidx : ∀ e ∈ List.range block.getVariables.length, e < block.getVariables.length :=
    fun e he => List.mem_range.mp he
  have hl := validateInputLengthMatch_loop_present block.getVariables v0.address h
    (List.range block.getVariables.length) hidx
  have hiff : (∀ e ∈ List.range block.getVariables.length, ∀ v aV,
        block.getVariables[e]? = some v → v.getNDArray = some aV → aV.lengthOf = v0.address)
      ↔ ∀ v ∈ block.getVariables, ∀ aV, v.getNDArray = some aV → aV.lengthOf = v0.address := by
    constructor
    · intro hall v hv aV haV
      obtain ⟨e, he⟩ := List.mem_iff_getElem?.mp hv
      have hlt : e < block.getVariables.length := by
        by_contra hge
        rw [List.getElem?_eq_none (Nat.le_of_not_lt hge)] at he
        cases he
      exact hall e (List.mem_range.mpr hlt) v aV he haV
    · intro hall e _ v aV hv haV
      exact hall v (List.getElem?_mem hv) aV haV
  rw [hiff] at hl
  cases hvars : block.getVariables with
  | nil => simp [hvars] at h0
  | cons w ws =>
    have hw : w = v0 := by simpa [hvars] using h0
    subst hw
    rw [hvars] at hl
    simpa [validateInputLengthMatch, hvars, at_] using hl

/-- Claim C9, evaluated at two tensors of six elements each: every input tensor has
the length of the tensor of variable 0, yet `validateInputLengthMatch` compares
the lengths with the pointer to variable 0 and returns BAD_LENGTH instead of
OK. -/
theorem validateInputLengthMatch_equal_lengths_rejected :
    (∀ v ∈ pair23.getVariables, v.getNDArray.map NDArray.lengthOf = some 6)
      ∧ validateInputLengthMatch pair23 = Except.ok ND4J_STATUS_BAD_LENGTH
      ∧ validateInputLengthMatch pair23 ≠ Except.ok ND4J_STATUS_OK := by
  refine ⟨by decide, rfl, ?_⟩
  intro e
  have e2 : (Except.ok ND4J_STATUS_BAD_LENGTH : Except Fault Nd4jStatus)
      = Except.ok ND4J_STATUS_OK := e
  simp [ND4J_STATUS_OK, ND4J_STATUS_BAD_LENGTH] at e2

/-! ## Properties of the guard -/

/-- Claim C10. For every status code, the guard (`REQUIRE_OK`, that is
`resultHelper`) raises if and only if the code is not OK: on OK it returns and
leaves `stderr` as it was; on every other code, among them BAD_INPUT,
BAD_DIMENSIONS, BAD_ORDER and BAD_LENGTH, it raises `"Validation failed"` and
does not return, whatever expression text and location it is given. -/
theorem resultHelper_raises_iff (status : Nd4jStatus) (func file : String) (line : Int)
    (stderr : List Diagnostic) :
    ((REQUIRE_OK status func file line stderr).1
          = Except.error (Fault.thrown "Validation failed") ↔ status ≠ ND4J_STATUS_OK)
      ∧ ((REQUIRE_OK status func file line stderr).1 = Except.ok () ↔
          status = ND4J_STATUS_OK)
      ∧ REQUIRE_OK ND4J_STATUS_OK func file line stderr = (Except.ok (), stderr)
      ∧ (∀ s ∈ [ND4J_STATUS_BAD_INPUT, ND4J_STATUS_BAD_DIMENSIONS, ND4J_STATUS_BAD_ORDER,
            ND4J_STATUS_BAD_LENGTH],
          (REQUIRE_OK s func file line stderr).1
            = Except.error (Fault.thrown "Validation failed"))
      ∧ REQUIRE_OK status func file line stderr
          = resultHelper status func file line stderr := by
  refine ⟨?_, ?_, ?_, ?_, rfl⟩
  · by_cases hs : status = 0 <;> simp [REQUIRE_OK, resultHelper, ND4J_STATUS_OK, hs]
  · by_cases hs : status = 0 <;> simp [REQUIRE_OK, resultHelper, ND4J_STATUS_OK, hs]
  · simp [REQUIRE_OK, resultHelper, ND4J_STATUS_OK]
  · intro s hs
    simp only [List.mem_cons, List.mem_singleton, List.mem_nil_iff, or_false] at hs
    rcases hs with e | e | e | e <;>
      simp [e, REQUIRE_OK, resultHelper, ND4J_STATUS_BAD_INPUT, ND4J_STATUS_BAD_DIMENSIONS,
        ND4J_STATUS_BAD_ORDER, ND4J_STATUS_BAD_LENGTH]

/-! ## Faults of the checks, and the wrappers -/

/-- The check `validateNonEmptyInput` returns a status on every context. -/
theorem validateNonEmptyInput_total (block : Block) :
    validateNonEmptyInput block = Except.ok ND4J_STATUS_OK
      ∨ validateNonEmptyInput block = Except.ok ND4J_STATUS_BAD_INPUT := by
  unfold validateNonEmptyInput
  split
  · exact Or.inr rfl
  · exact validateNonEmptyInput_loop_cases block.getVariables

/-- The loop of `validateInputDimensions` returns a status on every list. -/
theorem validateInputDimensions_loop_total (rank : Int) (vs : List Variable) :
    ∃ s, validateInputDimensions.loop rank vs = Except.ok s := by
  induction vs with
  | nil => exact ⟨ND4J_STATUS_OK, rfl⟩
  | cons v vs ih =>
    cases hv : v.getNDArray with
    | none => exact ⟨ND4J_STATUS_BAD_INPUT, by simp [validateInputDimensions.loop, hv]⟩
    | some aV =>
      by_cases hr : aV.rankOf = rank
      · obtain ⟨s, hs⟩ := ih
        exact ⟨s, by simp [validateInputDimensions.loop, hv, hr, hs]⟩
      · exact ⟨ND4J_STATUS_BAD_DIMENSIONS, by simp [validateInputDimensions.loop, hv, hr]⟩

/-- The check `validateInputDimensions` returns a status on every context. -/
theorem validateInputDimensions_total (block : Block) (rank : Int) :
    ∃ s, validateInputDimensions block rank = Except.ok s := by
  rw [validateInputDimensions_eq_loop]
  exact validateInputDimensions_loop_total rank block.getVariables

/-- Claim C11, evaluated at contexts with a null tensor handle: `validateOrdersMatch`
and `validateInputDimensionsMatch` call a member through the null handle, be it
that of variable 0 or of a later variable, and `validateInputLengthMatch` does
so on the null handle of variable 0; they fault instead of returning a status.
On the same contexts `validateNonEmptyInput` and `validateInputDimensions`, which
test the handle first, return BAD_INPUT. -/
theorem match_checks_fault_on_null_handle :
    validateOrdersMatch rank2ThenNull = Except.error Fault.nullDereference
      ∧ validateOrdersMatch nullThenRank2 = Except.error Fault.nullDereference
      ∧ validateInputDimensionsMatch rank2ThenNull = Except.error Fault.nullDereference
      ∧ validateInputDimensionsMatch nullThenRank2 = Except.error Fault.nullDereference
      ∧ validateInputLengthMatch nullThenRank2 = Except.error Fault.nullDereference
      ∧ validateNonEmptyInput rank2ThenNull = Except.ok ND4J_STATUS_BAD_INPUT
      ∧ validateNonEmptyInput nullThenRank2 = Except.ok ND4J_STATUS_BAD_INPUT
      ∧ validateInputDimensions rank2ThenNull 2 = Except.ok ND4J_STATUS_BAD_INPUT
      ∧ validateInputDimensions nullThenRank2 2 = Except.ok ND4J_STATUS_BAD_INPUT :=
  ⟨rfl, rfl, rfl, rfl, rfl, rfl, rfl, rfl, rfl⟩

/-- Claim C14. For every context, `validateInput2D`, `validateInput3D` and
`validateInput4D` return exactly what `validateInputDimensions` returns with
target rank 2, 3 and 4 respectively. -/
theorem validateInputND_eq_validateInputDimensions (block : Block) :
    validateInput2D block = validateInputDimensions block 2
      ∧ validateInput3D block = validateInputDimensions block 3
      ∧ validateInput4D block = validateInputDimensions block 4 :=
  ⟨rfl, rfl, rfl⟩

/-! ## The stored context and the descriptor -/

/-- Claim C12, refuted as stated: after `execute` on the context `pair23`, a later
call of `execute` with a null context raises and the operation still holds the
reference to `pair23` that the earlier invocation stored. -/
theorem execute_null_keeps_earlier_block :
    (execute returnOk none (execute returnOk (some pair23) addOp).state).result
        = Except.error (Fault.invalid_argument "Block is NULL")
      ∧ (execute returnOk none (execute returnOk (some pair23) addOp).state).state._block
        = some pair23 :=
  ⟨rfl, rfl⟩

/-- Claim C12, amended. For every operation whose `validateAndExecute` does not
itself assign the stored reference: `validateAndExecute` runs with the stored
reference bound to the context of the call, after `execute` on a non-null
context the stored reference is that context, whatever an earlier invocation
had stored, and `execute` on a null context leaves the stored reference as it
was. -/
theorem execute_rebinds_on_non_null {σ : Type} (validateAndExecute : ValidateAndExecute σ)
    (hkeep : ∀ (b : Block) (s : DeclarableOp σ), (validateAndExecute b s).2._block = s._block)
    (b : Block) (self : DeclarableOp σ) :
    (execute validateAndExecute (some b) self).state._block = some b
      ∧ (execute validateAndExecute (some b) self).state
          = (validateAndExecute b { self with _block := some b }).2
      ∧ (∀ later : Block,
          (execute validateAndExecute (some later)
            (execute validateAndExecute (some b) self).state).state._block = some later)
      ∧ (execute validateAndExecute none self).state._block = self._block := by
  refine ⟨?_, rfl, fun later => ?_, rfl⟩
  · exact hkeep b { self with _block := some b }
  · exact hkeep later _

/-- Claim C12, amended, at the operation `addOp` with the override `returnOk`: after
`execute` on `pair23` and then on `pair6and5` the stored reference is
`pair6and5`. -/
theorem execute_rebinds_on_non_null_witness :
    (∀ (b : Block) (s : DeclarableOp Unit), (returnOk b s).2._block = s._block)
      ∧ (execute returnOk (some pair6and5)
          (execute returnOk (some pair23) addOp).state).state._block = some pair6and5 :=
  ⟨fun _ _ => rfl,
    (execute_rebinds_on_non_null returnOk (fun _ _ => rfl) pair23 addOp).2.2.1 pair6and5⟩

/-- The field `_descriptor` set by the constructor is not written by `execute`: it
is what `validateAndExecute` leaves, so it keeps its three values through any
call whose `validateAndExecute` does not assign it, and `getOpName` returns the
name given to the constructor. -/
theorem execute_keeps_descriptor {σ : Type} (validateAndExecute : ValidateAndExecute σ)
    (hkeep : ∀ (b : Block) (s : DeclarableOp σ),
      (validateAndExecute b s).2._descriptor = s._descriptor)
    (block : Option Block) (self : DeclarableOp σ) :
    (execute validateAndExecute block self).state._descriptor = self._descriptor
      ∧ getOpName (execute validateAndExecute block self).state = getOpName self := by
  have h1 : (execute validateAndExecute block self).state._descriptor = self._descriptor := by
    cases block with
    | none => rfl
    | some b => exact hkeep b { self with _block := some b }
  exact ⟨h1, by simp [getOpName, h1]⟩

/-- Claim C13, evaluated at the operation constructed with `(2, 1, "add")`: the field
`_descriptor` holds these three values and `getOpName` returns `"add"`, but
`getOpDescriptor` returns the address of the field `_descriptor`, a pointer to a
pointer, and not a pointer to the descriptor holding the three values. -/
theorem getOpDescriptor_addresses_field :
    addOp._descriptor = some { numInputs := 2, numOutputs := 1, opName := "add" }
      ∧ getOpName addOp = Except.ok "add"
      ∧ getOpDescriptor addOp
        = DescriptorPointer.toField (some { numInputs := 2, numOutputs := 1, opName := "add" })
      ∧ getOpDescriptor addOp
        ≠ DescriptorPointer.toObject { numInputs := 2, numOutputs := 1, opName := "add" } := by
  refine ⟨rfl, rfl, rfl, ?_⟩
  intro e
  cases e

/-! ## The rank check in list order -/

/-- The loop of `validateInputDimensions` answers with the verdict on the first
variable that fails the rank check. -/
theorem validateInputDimensions_loop_verdict (rank : Int) (vs : List Variable) :
    validateInputDimensions.loop rank vs
      = Except.ok (rankVerdict (vs.find? (failsRankCheck rank))) := by
  induction vs with
  | nil => rfl
  | cons v vs ih =>
    cases hv : v.getNDArray with
    | none =>
      have hf : failsRankCheck rank v = true := by simp [failsRankCheck, hv]
      simp [validateInputDimensions.loop, hv, List.find?, hf, rankVerdict]
    | some aV =>
      by_cases hr : aV.rankOf = rank
      · have hf : failsRankCheck rank v = false := by simp [failsRankCheck, hv, hr]
        simp [validateInputDimensions.loop, hv, hr, List.find?, hf, ih]
      · have hf : failsRankCheck rank v = true := by simp [failsRankCheck, hv, hr]
        simp [validateInputDimensions.loop, hv, hr, List.find?, hf, rankVerdict]

/-- The first element satisfying a test, when the elements in front of it do not. -/
theorem find_first_failure (p : Variable → Bool) (pre : List Variable) (v : Variable)
    (post : List Variable) (hpre : ∀ w ∈ pre, p w = false) (hv : p v = true) :
    (pre ++ v :: post).find? p = some v := by
  induction pre with
  | nil => simp [List.find?, hv]
  | cons w ws ih =>
    have hw : p w = false := hpre w (List.mem_cons_self w ws)
    have ih2 := ih (fun u hu => hpre u (List.mem_cons_of_mem w hu))
    simpa [List.find?, hw] using ih2

/-- Claim C15. For every context (the non-empty ones in particular) and every target
rank, the result of `validateInputDimensions` is decided by the first input
variable, in list order, that has a null tensor handle or a tensor of another
rank: BAD_INPUT if its handle is null, BAD_DIMENSIONS if its tensor has another
rank, OK if there is no such variable; and the variables after it play no role,
the result being the same whatever follows it. -/
theorem validateInputDimensions_first_failure (block : Block) (rank : Int) :
    validateInputDimensions block rank
        = Except.ok (rankVerdict (block.getVariables.find? (failsRankCheck rank)))
      ∧ ∀ (pre : List Variable) (v : Variable) (post other : List Variable),
          block.getVariables = pre ++ v :: post →
          (∀ w ∈ pre, failsRankCheck rank w = false) →
          failsRankCheck rank v = true →
          validateInputDimensions block rank = Except.ok (rankVerdict (some v))
            ∧ validateInputDimensions { getVariables := pre ++ v :: other } rank
              = validateInputDimensions block rank := by
  refine ⟨?_, ?_⟩
  · rw [validateInputDimensions_eq_loop]
    exact validateInputDimensions_loop_verdict rank block.getVariables
  · intro pre v post other hvars hpre hv
    rw [validateInputDimensions_eq_loop, validateInputDimensions_eq_loop,
      validateInputDimensions_loop_verdict, validateInputDimensions_loop_verdict, hvars,
      find_first_failure (failsRankCheck rank) pre v post hpre hv,
      find_first_failure (failsRankCheck rank) pre v other hpre hv]
    exact ⟨rfl, rfl⟩

/-- Claim C17. For every context with at least one input variable, two target ranks
for which `validateInputDimensions` returns OK are equal; so no two of
`validateInput2D`, `validateInput3D` and `validateInput4D` return OK on it. -/
theorem validateInputDimensions_rank_unique (block : Block)
    (hne : block.getVariables ≠ []) :
    (∀ r1 r2 : Int, validateInputDimensions block r1 = Except.ok ND4J_STATUS_OK →
        validateInputDimensions block r2 = Except.ok ND4J_STATUS_OK → r1 = r2)
      ∧ ¬ (validateInput2D block = Except.ok ND4J_STATUS_OK
            ∧ validateInput3D block = Except.ok ND4J_STATUS_OK)
      ∧ ¬ (validateInput2D block = Except.ok ND4J_STATUS_OK
            ∧ validateInput4D block = Except.ok ND4J_STATUS_OK)
      ∧ ¬ (validateInput3D block = Except.ok ND4J_STATUS_OK
            ∧ validateInput4D block = Except.ok ND4J_STATUS_OK) := by
  have huniq : ∀ r1 r2 : Int, validateInputDimensions block r1 = Except.ok ND4J_STATUS_OK →
      validateInputDimensions block r2 = Except.ok ND4J_STATUS_OK → r1 = r2 := by
    intro r1 r2 h1 h2
    rw [validateInputDimensions_eq_loop] at h1 h2
    cases hvars : block.getVariables with
    | nil => exact absurd hvars hne
    | cons w ws =>
      have hw : w ∈ block.getVariables := by simp [hvars]
      obtain ⟨a1, ha1, hr1⟩ := (validateInputDimensions_loop_ok r1 _).mp h1 w hw
      obtain ⟨a2, ha2, hr2⟩ := (validateInputDimensions_loop_ok r2 _).mp h2 w hw
      rw [ha1] at ha2
      cases ha2
      exact hr1.symm.trans hr2
  refine ⟨huniq, ?_, ?_, ?_⟩
  · intro h
    exact absurd (huniq 2 3 h.1 h.2) (by decide)
  · intro h
    exact absurd (huniq 2 4 h.1 h.2) (by decide)
  · intro h
    exact absurd (huniq 3 4 h.1 h.2) (by decide)

/-- Claim C17 at two rank-2 tensors: `validateInput2D` returns OK, so
`validateInput3D` and `validateInput4D` do not. -/
theorem validateInputDimensions_rank_unique_witness :
    pair23.getVariables ≠ []
      ∧ validateInput2D pair23 = Except.ok ND4J_STATUS_OK
      ∧ validateInput3D pair23 ≠ Except.ok ND4J_STATUS_OK
      ∧ validateInput4D pair23 ≠ Except.ok ND4J_STATUS_OK :=
  ⟨by decide, rfl,
    fun h3 => (validateInputDimensions_rank_unique pair23 (by decide)).2.1 ⟨rfl, h3⟩,
    fun h4 => (validateInputDimensions_rank_unique pair23 (by decide)).2.2.1 ⟨rfl, h4⟩⟩

/-- Claim C15 at the context `rank3ThenNull` with target rank 2: the rank-3 tensor in
front decides, the answer is BAD_DIMENSIONS, and it stays the same when the
null-handled variable after it is replaced by a rank-2 tensor. -/
theorem validateInputDimensions_first_failure_witness :
    validateInputDimensions rank3ThenNull 2 = Except.ok ND4J_STATUS_BAD_DIMENSIONS
      ∧ validateInputDimensions
          { getVariables := [] ++ { address := 4096, getNDArray := some tensor234 }
              :: [{ address := 4128, getNDArray := some tensor23 }] } 2
        = validateInputDimensions rank3ThenNull 2 :=
  ⟨((validateInputDimensions_first_failure rank3ThenNull 2).2 []
      { address := 4096, getNDArray := some tensor234 }
      [{ address := 4128, getNDArray := none }]
      [{ address := 4128, getNDArray := some tensor23 }] rfl (by simp) (by decide)).1,
    ((validateInputDimensions_first_failure rank3ThenNull 2).2 []
      { address := 4096, getNDArray := some tensor234 }
      [{ address := 4128, getNDArray := none }]
      [{ address := 4128, getNDArray := some tensor23 }] rfl (by simp) (by decide)).2⟩

/-! ## The checks behind `validateNonEmptyInput`, and reordering -/

/-- A context on which `validateNonEmptyInput` returns OK has a variable, and all
its variables wrap a tensor. -/
theorem validateNonEmptyInput_ok_present (block : Block)
    (h : validateNonEmptyInput block = Except.ok ND4J_STATUS_OK) :
    block.getVariables ≠ [] ∧ ∀ v ∈ block.getVariables, v.getNDArray ≠ none := by
  unfold validateNonEmptyInput at h
  split at h
  · exact absurd h.symm ok_ne_bad_input
  · next hlen =>
    constructor
    · intro hnil
      rw [hnil] at hlen
      simp at hlen
    · intro v hv hnone
      obtain ⟨aV, haV, _⟩ := (validateNonEmptyInput_loop_ok block.getVariables).mp h v hv
      rw [hnone] at haV
      cases haV

/-- On a non-empty list `validateOrdersMatch` is its loop against the tensor handle
of the first variable. -/
theorem validateOrdersMatch_cons (w : Variable) (ws : List Variable) :
    validateOrdersMatch { getVariables := w :: ws }
      = validateOrdersMatch.loop w.getNDArray (w :: ws) := by
  simp [validateOrdersMatch, at_]

/-- On a non-empty list `validateInputDimensionsMatch` is its loop against the
tensor handle of the first variable. -/
theorem validateInputDimensionsMatch_cons (w : Variable) (ws : List Variable) :
    validateInputDimensionsMatch { getVariables := w :: ws }
      = validateInputDimensionsMatch.loop w.getNDArray (w :: ws) := by
  simp [validateInputDimensionsMatch, at_]

/-- Claim C16. For every context on which `validateNonEmptyInput` returns OK, each of
`validateInputDimensions`, `validateOrdersMatch`, `validateInputDimensionsMatch`
and `validateInputLengthMatch` returns a status, OK or its own failure code: no
index leaves the variable list and no member is called through a null tensor
handle; and `validateInputDimensions` does not return BAD_INPUT. -/
theorem checks_safe_after_validateNonEmptyInput (block : Block)
    (h : validateNonEmptyInput block = Except.ok ND4J_STATUS_OK) :
    (∀ rank : Int, validateInputDimensions block rank = Except.ok ND4J_STATUS_OK
        ∨ validateInputDimensions block rank = Except.ok ND4J_STATUS_BAD_DIMENSIONS)
      ∧ (∀ rank : Int, validateInputDimensions block rank ≠ Except.ok ND4J_STATUS_BAD_INPUT)
      ∧ (validateOrdersMatch block = Except.ok ND4J_STATUS_OK
        ∨ validateOrdersMatch block = Except.ok ND4J_STATUS_BAD_ORDER)
      ∧ (validateInputDimensionsMatch block = Except.ok ND4J_STATUS_OK
        ∨ validateInputDimensionsMatch block = Except.ok ND4J_STATUS_BAD_DIMENSIONS)
      ∧ (validateInputLengthMatch block = Except.ok ND4J_STATUS_OK
        ∨ validateInputLengthMatch block = Except.ok ND4J_STATUS_BAD_LENGTH) := by
  obtain ⟨hne, hall⟩ := validateNonEmptyInput_ok_present block h
  have hdim : ∀ rank : Int, validateInputDimensions block rank = Except.ok ND4J_STATUS_OK
      ∨ validateInputDimensions block rank = Except.ok ND4J_STATUS_BAD_DIMENSIONS := by
    intro rank
    rw [validateInputDimensions_eq_loop]
    exact validateInputDimensions_loop_present rank block.getVariables hall
  obtain ⟨vars⟩ := block
  cases vars with
  | nil => exact absurd rfl hne
  | cons w ws =>
    cases hw : w.getNDArray with
    | none => exact absurd hw (hall w (List.mem_cons_self w ws))
    | some a0 =>
      refine ⟨hdim, ?_, ?_, ?_, ?_⟩
      · intro rank hbad
        rcases hdim rank with e | e
        · rw [e] at hbad
          simp [ND4J_STATUS_OK, ND4J_STATUS_BAD_INPUT] at hbad
        · rw [e] at hbad
          simp [ND4J_STATUS_BAD_DIMENSIONS, ND4J_STATUS_BAD_INPUT] at hbad
      · rw [validateOrdersMatch_cons, hw]
        have hl := validateOrdersMatch_loop_present a0 (w :: ws) hall
        by_cases hp : ∀ v ∈ w :: ws, ∀ aV, v.getNDArray = some aV → aV.ordering = a0.ordering
        · exact Or.inl (hl.1.mpr hp)
        · exact Or.inr (hl.2.mpr hp)
      · rw [validateInputDimensionsMatch_cons, hw]
        have hl := validateInputDimensionsMatch_loop_present a0 (w :: ws) hall
        by_cases hp : ∀ v ∈ w :: ws, ∀ aV, v.getNDArray = some aV →
            shape.equalsSoft a0.shapeOf aV.shapeOf = true
        · exact Or.inl (hl.1.mpr hp)
        · exact Or.inr (hl.2.mpr hp)
      · have hl := validateInputLengthMatch_compares_address { getVariables := w :: ws } w
          rfl hall
        by_cases hp : ∀ v ∈ w :: ws, ∀ aV, v.getNDArray = some aV → aV.lengthOf = w.address
        · exact Or.inl (hl.1.mpr hp)
        · exact Or.inr (hl.2.mpr hp)

/-- Claim C16 at two tensors of shape `[2, 3]`: `validateNonEmptyInput` returns OK
and `validateOrdersMatch` returns a status. -/
theorem checks_safe_after_validateNonEmptyInput_witness :
    validateNonEmptyInput pair23 = Except.ok ND4J_STATUS_OK
      ∧ (validateOrdersMatch pair23 = Except.ok ND4J_STATUS_OK
        ∨ validateOrdersMatch pair23 = Except.ok ND4J_STATUS_BAD_ORDER) :=
  ⟨rfl, (checks_safe_after_validateNonEmptyInput pair23 rfl).2.2.1⟩

/-- Claim C18. For every context whose input variables all wrap a non-null tensor
handle, `validateOrdersMatch` returns the same result on every context whose
variable list is a permutation of its own, also when another variable comes to
position 0. -/
theorem validateOrdersMatch_perm (block other : Block)
    (h : ∀ v ∈ block.getVariables, v.getNDArray ≠ none)
    (hp : List.Perm block.getVariables other.getVariables) :
    validateOrdersMatch block = validateOrdersMatch other := by
  obtain ⟨vars⟩ := block
  obtain ⟨vars2⟩ := other
  have h2 : ∀ v ∈ vars2, v.getNDArray ≠ none := fun v hv => h v (hp.mem_iff.mpr hv)
  cases vars with
  | nil =>
    have e : vars2 = [] := List.Perm.eq_nil (List.Perm.symm hp)
    rw [e]
  | cons w ws =>
    cases vars2 with
    | nil => exact absurd (List.Perm.eq_nil hp) (by simp)
    | cons u us =>
      have hwmem : w ∈ u :: us := hp.mem_iff.mp (List.mem_cons_self w ws)
      have humem : u ∈ w :: ws := hp.mem_iff.mpr (List.mem_cons_self u us)
      cases hw : w.getNDArray with
      | none => exact absurd hw (h w (List.mem_cons_self w ws))
      | some a0 =>
        cases hu : u.getNDArray with
        | none => exact absurd hu (h2 u (List.mem_cons_self u us))
        | some b0 =>
          have hl := validateOrdersMatch_loop_present a0 (w :: ws) h
          have hl2 := validateOrdersMatch_loop_present b0 (u :: us) h2
          have hiff : (∀ v ∈ w :: ws, ∀ aV, v.getNDArray = some aV →
                aV.ordering = a0.ordering)
              ↔ (∀ v ∈ u :: us, ∀ aV, v.getNDArray = some aV → aV.ordering = b0.ordering) := by
            constructor
            · intro hall v hv aV haV
              have e1 := hall v (hp.mem_iff.mpr hv) aV haV
              have e2 := hall u humem b0 hu
              exact e1.trans e2.symm
            · intro hall v hv aV haV
              have e1 := hall v (hp.mem_iff.mp hv) aV haV
              have e2 := hall w hwmem a0 hw
              exact e1.trans e2.symm
          rw [validateOrdersMatch_cons, validateOrdersMatch_cons, hw, hu]
          by_cases hq : ∀ v ∈ w :: ws, ∀ aV, v.getNDArray = some aV → aV.ordering = a0.ordering
          · rw [hl.1.mpr hq, hl2.1.mpr (hiff.mp hq)]
          · rw [hl.2.mpr hq, hl2.2.mpr (fun hq2 => hq (hiff.mpr hq2))]

/-- Claim C18 at a row-major and a column-major tensor, in both orders: the handles
are non-null, the lists are permutations of each other with another variable at
position 0, and `validateOrdersMatch` returns the same result. -/
theorem validateOrdersMatch_perm_witness :
    (∀ v ∈ pairRowColumn.getVariables, v.getNDArray ≠ none)
      ∧ List.Perm pairRowColumn.getVariables pairColumnRow.getVariables
      ∧ validateOrdersMatch pairRowColumn = validateOrdersMatch pairColumnRow :=
  ⟨by decide, List.Perm.swap _ _ [],
    validateOrdersMatch_perm pairRowColumn pairColumnRow (by decide) (List.Perm.swap _ _ [])⟩

end ops

end nd4j
